import Mathlib

/-!
Verification development for `fetch_news.py`, a single-file news/paper
aggregation pipeline (PubMed and arXiv adapters, normalization, tagging,
recency filtering, deduplication, bucket assembly).

The Python source is shallowly embedded: pure helpers become Lean functions;
network calls (`requests.get`, `feedparser.parse`) are passed in explicitly as
oracle arguments (`Option`-valued fetch results), and the HTML fields that
`BeautifulSoup` selectors would extract are carried as record fields of a
`Page` value.  Raised exceptions are modelled with `Except Unit`.
-/

set_option maxRecDepth 100000
set_option maxHeartbeats 1600000

namespace FetchNews

/-- Python whitespace class used by `re.sub(r"\s+", ...)` and `str.strip` in
the source (ASCII subset; the pipeline feeds these helpers ASCII metadata). -/
def pyIsSpace (c : Char) : Bool :=
  c == ' ' || c == '\t' || c == '\n' || c == '\r' || c == '\x0b' || c == '\x0c'

/-- Python `str.strip()`. -/
def pyStrip (s : String) : String :=
  String.mk (((s.data.dropWhile pyIsSpace).reverse.dropWhile pyIsSpace).reverse)

/-- Python `str.rstrip()`. -/
def pyRStrip (s : String) : String :=
  String.mk ((s.data.reverse.dropWhile pyIsSpace).reverse)

/-- Models `re.sub(r"\s+", " ", txt).strip()`: every maximal whitespace run
collapses to one space and the ends are trimmed. -/
def collapseWS (s : String) : String :=
  String.intercalate " " (((s.data.splitOnP pyIsSpace).map String.mk).filter (· ≠ ""))

/-- Models `clean_abs` of `fetch_news.py` (the caller passes `limit`). -/
def clean_abs (txt : String) (limit : Nat) : String :=
  if txt = "" then ""
  else
    let t := collapseWS txt
    if t.length ≤ limit then t else pyRStrip (t.take limit) ++ "…"

/-- Python `a or b` on an optional string `a` (`None` and `""` are falsy). -/
def pyOr (o : Option String) (d : String) : String :=
  match o with
  | some s => if s = "" then d else s
  | none => d

/-- Python truthiness filter on an optional string: `x if x else None`. -/
def truthy (o : Option String) : Option String :=
  match o with
  | some s => if s = "" then none else some s
  | none => none

/-- Python `str.lower()` (ASCII case folding, which covers the titles,
sources, and hosts this pipeline lowers). -/
def pyLower (s : String) : String := String.mk (s.data.map Char.toLower)

/-- Prefix test on character lists. -/
def isPrefixOfChars : List Char → List Char → Bool
  | [], _ => true
  | _ :: _, [] => false
  | a :: as, b :: bs => a == b && isPrefixOfChars as bs

/-- Python `str.startswith` (character-level; the pipeline's URLs are
ASCII). -/
def pyStartsWith (s pre : String) : Bool := isPrefixOfChars pre.data s.data

/-- Scan of the prefix test over every suffix of the haystack. -/
def containsAux (needle : List Char) : List Char → Bool
  | [] => isPrefixOfChars needle []
  | c :: rest => isPrefixOfChars needle (c :: rest) || containsAux needle rest

/-- Python `needle in hay` on strings (substring test). -/
def pyContains (needle hay : String) : Bool :=
  containsAux needle.data hay.data

/-- Calendar date, the model of a Python `datetime.date`. -/
structure Date where
  year : Nat
  month : Nat
  day : Nat
  deriving DecidableEq, Repr

/-- Gregorian leap-year test. -/
def isLeap (y : Nat) : Bool :=
  (y % 4 == 0 && y % 100 != 0) || y % 400 == 0

/-- Length of month `m` in year `y`. -/
def daysInMonth (y m : Nat) : Nat :=
  if m == 2 then (if isLeap y then 29 else 28)
  else if m == 4 || m == 6 || m == 9 || m == 11 then 30
  else 31

/-- Days in year `y` strictly before month `m`. -/
def daysBeforeMonth (y m : Nat) : Nat :=
  match m with
  | 0 => 0
  | mm + 1 => if mm = 0 then 0 else daysBeforeMonth y mm + daysInMonth y mm

/-- Proleptic-Gregorian day number, matching Python `datetime.date.toordinal`
for years ≥ 1 (ordinal 1 is 0001-01-01).  `(today - d).days` in the source is
the difference of two such ordinals. -/
def toOrdinalNat (dte : Date) : Nat :=
  let y := dte.year - 1
  365 * y + y / 4 + y / 400 + daysBeforeMonth dte.year dte.month + dte.day - y / 100

/-- Argument validity of the `datetime.date(y, m, d)` constructor. -/
def validDate (y m d : Nat) : Bool :=
  decide (1 ≤ y) && decide (y ≤ 9999) && decide (1 ≤ m) && decide (m ≤ 12)
    && decide (1 ≤ d) && decide (d ≤ daysInMonth y m)

/-- Left-pad a numeral with zeros, as `"%04d"`/`"%02d"` formatting does. -/
def padNum (width n : Nat) : String :=
  let s := toString n
  String.mk (List.replicate (width - s.length) '0') ++ s

/-- Python `date.isoformat()`: render as `YYYY-MM-DD`. -/
def isoformatDate (dte : Date) : String :=
  padNum 4 dte.year ++ "-" ++ padNum 2 dte.month ++ "-" ++ padNum 2 dte.day

/-- Numeric value of an ASCII digit. -/
def digitVal (c : Char) : Nat := c.toNat - '0'.toNat

/-- CPython `datetime.date.fromisoformat` (strict `YYYY-MM-DD` form): exactly
ten characters, digits and dashes in place, naming a real calendar date. -/
def fromisoformat (s : String) : Option Date :=
  match s.data with
  | [y1, y2, y3, y4, h1, m1, m2, h2, d1, d2] =>
    if y1.isDigit && y2.isDigit && y3.isDigit && y4.isDigit && h1 == '-' && h2 == '-'
        && m1.isDigit && m2.isDigit && d1.isDigit && d2.isDigit then
      let y := ((digitVal y1 * 10 + digitVal y2) * 10 + digitVal y3) * 10 + digitVal y4
      let m := digitVal m1 * 10 + digitVal m2
      let d := digitVal d1 * 10 + digitVal d2
      if validDate y m d then some ⟨y, m, d⟩ else none
    else none
  | _ => none

/-- Separator class of the date regex in `iso_date`: dash, slash, or dot. -/
def isSep (c : Char) : Bool := c == '-' || c == '/' || c == '.'

/-- Match `(\d{1,2})` at the end of the date regex (greedy: two digits when
available, else one). -/
def matchDay : List Char → Option Nat
  | a :: b :: _ =>
    if a.isDigit then (if b.isDigit then some (digitVal a * 10 + digitVal b) else some (digitVal a))
    else none
  | [a] => if a.isDigit then some (digitVal a) else none
  | [] => none

/-- Match one separator followed by the final one-or-two-digit group. -/
def matchSepDay : List Char → Option Nat
  | s :: rest => if isSep s then matchDay rest else none
  | [] => none

/-- Match the month group, a separator, and the day group, with the regex engine's greedy month and
backtracking to a one-digit month when the separator does not follow. -/
def matchMonthSepDay : List Char → Option (Nat × Nat)
  | a :: rest =>
    if a.isDigit then
      match rest with
      | b :: rest2 =>
        if b.isDigit then
          match matchSepDay rest2 with
          | some d => some (digitVal a * 10 + digitVal b, d)
          | none =>
            match matchSepDay (b :: rest2) with
            | some d => some (digitVal a, d)
            | none => none
        else
          match matchSepDay (b :: rest2) with
          | some d => some (digitVal a, d)
          | none => none
      | [] => none
    else none
  | [] => none

/-- Match the whole date pattern (four-digit year, separator, month group,
separator, day group) anchored at the head of the character list. -/
def matchDateAt : List Char → Option (Nat × Nat × Nat)
  | a :: b :: c :: d :: rest =>
    if a.isDigit && b.isDigit && c.isDigit && d.isDigit then
      match rest with
      | s :: rest2 =>
        if isSep s then
          match matchMonthSepDay rest2 with
          | some (mo, dy) =>
            some (((digitVal a * 10 + digitVal b) * 10 + digitVal c) * 10 + digitVal d, mo, dy)
          | none => none
        else none
      | [] => none
    else none
  | _ => none

/-- Models `re.search` for the date pattern: leftmost match position wins. -/
def findDate : List Char → Option (Nat × Nat × Nat)
  | [] => none
  | c :: rest =>
    match matchDateAt (c :: rest) with
    | some r => some r
    | none => findDate rest

/-- Models `iso_date` of `fetch_news.py`.  The `.error` case is the raised
`ValueError` from `datetime.date(y, mo, d)` when the regex digits do not form
a real date: that exception is raised inside the `except` handler, so it
propagates to the caller. -/
def iso_date (s : String) : Except Unit String :=
  match fromisoformat (s.take 10) with
  | some dte => Except.ok (isoformatDate dte)
  | none =>
    match findDate s.data with
    | some (y, mo, d) =>
      if validDate y mo d then Except.ok (isoformatDate ⟨y, mo, d⟩) else Except.error ()
    | none => Except.ok (s.take 10)

/-- Models `within_days`; `today` stands for `datetime.datetime.now(JST).date()`,
which the source reads from the clock. -/
def within_days (date_str : String) (days : Int) (today : Date) : Bool :=
  match fromisoformat (date_str.take 10) with
  | none => true
  | some d => decide ((toOrdinalNat today : Int) - (toOrdinalNat d : Int) ≤ max days 0)

/-- Models `today_jst_str`: today's date rendered `YYYY-MM-DD`. -/
def today_jst_str (today : Date) : String := isoformatDate today

/-- Fuel-bounded bitwise AND (low bit first); structural recursion keeps it
reducible by the kernel. -/
def bitsAnd : Nat → Nat → Nat → Nat
  | 0, _, _ => 0
  | fuel + 1, a, b =>
    (if a % 2 == 1 && b % 2 == 1 then 1 else 0) + 2 * bitsAnd fuel (a / 2) (b / 2)

/-- Fuel-bounded bitwise OR. -/
def bitsOr : Nat → Nat → Nat → Nat
  | 0, _, _ => 0
  | fuel + 1, a, b =>
    (if a % 2 == 1 || b % 2 == 1 then 1 else 0) + 2 * bitsOr fuel (a / 2) (b / 2)

/-- Fuel-bounded bitwise XOR. -/
def bitsXor : Nat → Nat → Nat → Nat
  | 0, _, _ => 0
  | fuel + 1, a, b =>
    (if (a % 2 == 1) != (b % 2 == 1) then 1 else 0) + 2 * bitsXor fuel (a / 2) (b / 2)

/-- 32-bit bitwise AND. -/
def and32 (a b : Nat) : Nat := bitsAnd 32 a b

/-- 32-bit bitwise OR. -/
def or32 (a b : Nat) : Nat := bitsOr 32 a b

/-- 32-bit bitwise XOR. -/
def xor32 (a b : Nat) : Nat := bitsXor 32 a b

/-- 32-bit bitwise complement. -/
def not32 (a : Nat) : Nat := 4294967295 - a % 4294967296

/-- 32-bit wrapping addition. -/
def add32 (a b : Nat) : Nat := (a + b) % 4294967296

/-- 32-bit left rotation (for `x < 2^32`). -/
def rotl32 (x s : Nat) : Nat := (x * 2 ^ s + x / 2 ^ (32 - s)) % 4294967296

/-- MD5 round function F. -/
def mdF (b c d : Nat) : Nat := or32 (and32 b c) (and32 (not32 b) d)

/-- MD5 round function G. -/
def mdG (b c d : Nat) : Nat := or32 (and32 d b) (and32 (not32 d) c)

/-- MD5 round function H. -/
def mdH (b c d : Nat) : Nat := xor32 b (xor32 c d)

/-- MD5 round function I. -/
def mdI (b c d : Nat) : Nat := xor32 c (or32 b (not32 d))

/-- MD5 sine-derived constant table (RFC 1321, `T[1..64]`). -/
def kTable : List Nat :=
  [0xd76aa478, 0xe8c7b756, 0x242070db, 0xc1bdceee,
   0xf57c0faf, 0x4787c62a, 0xa8304613, 0xfd469501,
   0x698098d8, 0x8b44f7af, 0xffff5bb1, 0x895cd7be,
   0x6b901122, 0xfd987193, 0xa679438e, 0x49b40821,
   0xf61e2562, 0xc040b340, 0x265e5a51, 0xe9b6c7aa,
   0xd62f105d, 0x02441453, 0xd8a1e681, 0xe7d3fbc8,
   0x21e1cde6, 0xc33707d6, 0xf4d50d87, 0x455a14ed,
   0xa9e3e905, 0xfcefa3f8, 0x676f02d9, 0x8d2a4c8a,
   0xfffa3942, 0x8771f681, 0x6d9d6122, 0xfde5380c,
   0xa4beea44, 0x4bdecfa9, 0xf6bb4b60, 0xbebfbc70,
   0x289b7ec6, 0xeaa127fa, 0xd4ef3085, 0x04881d05,
   0xd9d4d039, 0xe6db99e5, 0x1fa27cf8, 0xc4ac5665,
   0xf4292244, 0x432aff97, 0xab9423a7, 0xfc93a039,
   0x655b59c3, 0x8f0ccc92, 0xffeff47d, 0x85845dd1,
   0x6fa87e4f, 0xfe2ce6e0, 0xa3014314, 0x4e0811a1,
   0xf7537e82, 0xbd3af235, 0x2ad7d2bb, 0xeb86d391]

/-- MD5 per-operation rotation amounts. -/
def sTable : List Nat :=
  [7, 12, 17, 22, 7, 12, 17, 22, 7, 12, 17, 22, 7, 12, 17, 22,
   5, 9, 14, 20, 5, 9, 14, 20, 5, 9, 14, 20, 5, 9, 14, 20,
   4, 11, 16, 23, 4, 11, 16, 23, 4, 11, 16, 23, 4, 11, 16, 23,
   6, 10, 15, 21, 6, 10, 15, 21, 6, 10, 15, 21, 6, 10, 15, 21]

/-- UTF-8 encoding of one Unicode scalar value. -/
def encodeChar (n : Nat) : List Nat :=
  if n < 0x80 then [n]
  else if n < 0x800 then [0xC0 + n / 64, 0x80 + n % 64]
  else if n < 0x10000 then [0xE0 + n / 4096, 0x80 + (n / 64) % 64, 0x80 + n % 64]
  else [0xF0 + n / 262144, 0x80 + (n / 4096) % 64, 0x80 + (n / 64) % 64, 0x80 + n % 64]

/-- Python `s.encode("utf-8", "ignore")` (Lean `Char` carries no surrogates,
so nothing is ever dropped). -/
def utf8Bytes (s : String) : List Nat :=
  (s.data.map (fun c => encodeChar c.toNat)).flatten

/-- MD5 padding: `0x80`, zeros to 56 mod 64, then the 64-bit little-endian
bit length. -/
def md5Pad (msg : List Nat) : List Nat :=
  let len := msg.length
  let zeros := (120 - (len + 1) % 64) % 64
  let bitLen := (8 * len) % 18446744073709551616
  msg ++ [0x80] ++ List.replicate zeros 0
      ++ ((List.range 8).map (fun i => bitLen / 256 ^ i % 256))

/-- Little-endian 32-bit word `g` of a 64-byte block. -/
def leWord (block : List Nat) (g : Nat) : Nat :=
  block.getD (4 * g) 0 + 256 * block.getD (4 * g + 1) 0
    + 65536 * block.getD (4 * g + 2) 0 + 16777216 * block.getD (4 * g + 3) 0

/-- One of the 64 MD5 operations. -/
def md5Step (block : List Nat) (abcd : Nat × Nat × Nat × Nat) (i : Nat) :
    Nat × Nat × Nat × Nat :=
  match abcd with
  | (a, b, c, d) =>
    let f := if i < 16 then mdF b c d
      else if i < 32 then mdG b c d
      else if i < 48 then mdH b c d
      else mdI b c d
    let g := if i < 16 then i
      else if i < 32 then (5 * i + 1) % 16
      else if i < 48 then (3 * i + 5) % 16
      else (7 * i) % 16
    let tmp := add32 (add32 (add32 f a) (kTable.getD i 0)) (leWord block g)
    (d, add32 b (rotl32 tmp (sTable.getD i 0)), b, c)

/-- Process one 64-byte block. -/
def md5Block (state : Nat × Nat × Nat × Nat) (block : List Nat) :
    Nat × Nat × Nat × Nat :=
  match state, (List.range 64).foldl (md5Step block) state with
  | (a0, b0, c0, d0), (a, b, c, d) => (add32 a0 a, add32 b0 b, add32 c0 c, add32 d0 d)

/-- Split a byte list into 64-byte blocks (fuel is the exact block count,
since the padded message length is a multiple of 64). -/
def chunk64Fuel : Nat → List Nat → List (List Nat)
  | 0, _ => []
  | fuel + 1, l => l.take 64 :: chunk64Fuel fuel (l.drop 64)

/-- Blocks of a padded message. -/
def chunk64 (l : List Nat) : List (List Nat) := chunk64Fuel (l.length / 64) l

/-- Lowercase hex digit. -/
def hexDigit (n : Nat) : Char :=
  if n < 10 then Char.ofNat ('0'.toNat + n) else Char.ofNat ('a'.toNat + n - 10)

/-- Two-digit lowercase hex of a byte. -/
def byteHex (n : Nat) : String := String.mk [hexDigit (n / 16 % 16), hexDigit (n % 16)]

/-- Little-endian hex rendering of a 32-bit word, as in an MD5 digest. -/
def wordLEHex (x : Nat) : String :=
  byteHex (x % 256) ++ byteHex (x / 256 % 256) ++ byteHex (x / 65536 % 256)
    ++ byteHex (x / 16777216 % 256)

/-- Full MD5 hex digest of a string's UTF-8 bytes, as
`hashlib.md5(s.encode("utf-8", "ignore")).hexdigest()`. -/
def md5Hex (s : String) : String :=
  match (chunk64 (md5Pad (utf8Bytes s))).foldl md5Block
      (0x67452301, 0xefcdab89, 0x98badcfe, 0x10325476) with
  | (a, b, c, d) => wordLEHex a ++ wordLEHex b ++ wordLEHex c ++ wordLEHex d

/-- Models `md5` of `fetch_news.py`: first 16 hex digits of the digest. -/
def md5 (s : String) : String := (md5Hex s).take 16

/-- Characters allowed inside a URL scheme. -/
def schemeChar (c : Char) : Bool := c.isAlphanum || c == '+' || c == '-' || c == '.'

/-- Split `scheme:rest` when the string starts with a valid scheme. -/
def splitScheme (u : String) : Option (String × String) :=
  match u.data with
  | c :: _ =>
    if c.isAlpha then
      match u.data.dropWhile schemeChar with
      | ':' :: tail => some (String.mk (u.data.takeWhile schemeChar), String.mk tail)
      | _ => none
    else none
  | [] => none

/-- Models `urllib.parse.urlparse(u).netloc` for the URL shapes this pipeline
meets: the authority after a double slash, ended by slash, question mark, or
hash; empty when the URL carries no authority. -/
def netloc (u : String) : String :=
  let afterSlashes : Option String :=
    if pyStartsWith u "//" then some (String.mk (u.data.drop 2))
    else
      match splitScheme u with
      | some (_, rest) =>
        if pyStartsWith rest "//" then some (String.mk (rest.data.drop 2)) else none
      | none => none
  match afterSlashes with
  | some r => String.mk (r.data.takeWhile (fun c => !(c == '/' || c == '?' || c == '#')))
  | none => ""

/-- Scheme of a URL, or empty. -/
def schemeOf (u : String) : String := ((splitScheme u).map Prod.fst).getD ""

/-- Scheme plus authority of a URL. -/
def originOf (u : String) : String :=
  (if schemeOf u = "" then "" else schemeOf u ++ ":") ++ "//" ++ netloc u

/-- Everything through the last slash of a URL (the resolution base for a
relative reference). -/
def dirOf (u : String) : String :=
  String.mk (u.data.reverse.dropWhile (fun c => c != '/')).reverse

/-- Modelled from `urllib.parse.urljoin`, simplified to the reference shapes
this pipeline produces: absolute, scheme-relative, absolute-path, and plain
relative references (without dot-segment normalization). -/
def urljoin (base ref : String) : String :=
  if ref = "" then base
  else if (splitScheme ref).isSome then ref
  else if pyStartsWith ref "//" then
    (if schemeOf base = "" then ref else schemeOf base ++ ":" ++ ref)
  else if pyStartsWith ref "/" then originOf base ++ ref
  else dirOf base ++ ref

/-- What the source extracts from one fetched landing page: `r.url` after
redirects, the `og:image` / `twitter:image` meta contents, the PubMed
full-text link target, and the abstract node texts.  `safe_get` together with
the BeautifulSoup selectors is modelled by a fetch oracle
`String → Option Page`, `none` being a failed request (`safe_get` returning
`None`). -/
structure Page where
  finalUrl : String
  ogContent : Option String
  twContent : Option String
  fulltextHref : Option String
  absContent : Option String
  absDiv : Option String
  deriving DecidableEq, Repr

/-- Models `get_og_image`: on a successful fetch, the first truthy of the
`og:image` / `twitter:image` contents resolved against the final URL, else a
favicon-service URL for the final URL's host; `None` exactly on fetch
failure.  The `except` fallback around the host extraction is dead for the
well-formed URLs `requests` reports, so the host extraction is total here. -/
def get_og_image (fetch : String → Option Page) (url : String) : Option String :=
  match fetch url with
  | none => none
  | some p =>
    match truthy p.ogContent with
    | some c => some (urljoin p.finalUrl (pyStrip c))
    | none =>
      match truthy p.twContent with
      | some c => some (urljoin p.finalUrl (pyStrip c))
      | none => some ("https://www.google.com/s2/favicons?sz=256&domain=" ++ netloc p.finalUrl)

/-- Models `best_cover_for`.  On a PubMed host the inner match is the
full-text-link attempt (`a and a.get("href")`, then `if img: return img`);
when it yields nothing, the `img = get_og_image(url); if img: return img;
return None` tail runs, which the final `truthy` captures. -/
def best_cover_for (fetch : String → Option Page) (url : String) : Option String :=
  if pyContains "pubmed.ncbi.nlm.nih.gov" (pyLower (netloc url)) then
    match
      (match fetch url with
        | none => none
        | some p =>
          match truthy p.fulltextHref with
          | some href => truthy (get_og_image fetch (urljoin p.finalUrl href))
          | none => none) with
    | some img => some img
    | none => truthy (get_og_image fetch url)
  else get_og_image fetch url

/-- Models `fetch_pubmed_abstract`. -/
def fetch_pubmed_abstract (fetch : String → Option Page) (url : String) : String :=
  match fetch url with
  | none => ""
  | some p =>
    match p.absContent with
    | some t => clean_abs t 800
    | none =>
      match p.absDiv with
      | some t => clean_abs t 800
      | none => ""

/-- One value of the `esummary` JSON `result` mapping. -/
structure PubMedDoc where
  title : Option String
  fulljournalname : Option String
  source : Option String
  pubdate : Option String
  epubdate : Option String
  sortpubdate : Option String
  deriving DecidableEq, Repr

/-- One record produced by `fetch_pubmed_summaries`. -/
structure SummaryRec where
  pmid : String
  title : String
  source : String
  time : String
  url : String
  deriving DecidableEq, Repr

/-- Per-record body of the `fetch_pubmed_summaries` loop (the `uids` key is
skipped by the caller); a raised `iso_date` error propagates to the
surrounding `try`. -/
def summary_of (today : Date) (k : String) (v : PubMedDoc) : Except Unit SummaryRec :=
  let date := pyOr v.pubdate (pyOr v.epubdate (pyOr v.sortpubdate ""))
  match (if date ≠ "" then iso_date date else Except.ok (today_jst_str today)) with
  | Except.error err => Except.error err
  | Except.ok date_iso =>
    Except.ok { pmid := k, title := pyStrip (pyOr v.title ""),
                source := pyStrip (pyOr v.fulljournalname (pyOr v.source "")),
                time := date_iso, url := "https://pubmed.ncbi.nlm.nih.gov/" ++ k ++ "/" }

/-- The `for k, v in js.get("result", {}).items()` loop. -/
def processDocs (today : Date) : List (String × PubMedDoc) → Except Unit (List SummaryRec)
  | [] => Except.ok []
  | (k, v) :: rest =>
    if k = "uids" then processDocs today rest
    else
      match summary_of today k v with
      | Except.error err => Except.error err
      | Except.ok r =>
        match processDocs today rest with
        | Except.error err => Except.error err
        | Except.ok rs => Except.ok (r :: rs)

/-- Models `fetch_pubmed_summaries`.  `resp` is the JSON `result` mapping of a
successful `esummary` call in its iteration order; `none` is a failed request
(`safe_get` returned `None`).  The surrounding `try` turns any raised error
into `[]`. -/
def fetch_pubmed_summaries (pmids : List String) (resp : Option (List (String × PubMedDoc)))
    (today : Date) : List SummaryRec :=
  if pmids.isEmpty then []
  else
    match resp with
    | none => []
    | some docs =>
      match processDocs today docs with
      | Except.ok l => l
      | Except.error _ => []

/-- Inner object of the `esearch` JSON payload. -/
structure ESearchInner where
  idlist : Option (List String)
  deriving DecidableEq, Repr

/-- Top-level `esearch` JSON payload. -/
structure ESearchResult where
  esearchresult : Option ESearchInner
  deriving DecidableEq, Repr

/-- Models `search_pubmed`: `resp` is the parsed JSON of a successful request,
`none` a failed one (a malformed body takes the `except` path to the same
empty result). -/
def search_pubmed (resp : Option ESearchResult) : List String :=
  match resp with
  | none => []
  | some js =>
    match js.esearchresult with
    | none => []
    | some inner => inner.idlist.getD []

/-- The output record shape (`@dataclass Item`). -/
structure Item where
  id : String
  title : String
  summary : String
  url : String
  cover : String
  source : String
  time : String
  tags : List String
  deriving DecidableEq, Repr

/-- Python `tags = [base]` then `if extra_tags: tags.extend(extra_tags)`
(both `None` and `[]` are falsy). -/
def withExtra (base : String) (extra : Option (List String)) : List String :=
  match extra with
  | none => [base]
  | some l => if l = [] then [base] else base :: l

/-- The `Item` the `build_pubmed_items` loop constructs from one summary
record. -/
def pubItemOf (extra : Option (List String)) (fetch : String → Option Page)
    (s : SummaryRec) : Item :=
  { id := md5 s.url
    title := s.title
    summary := fetch_pubmed_abstract fetch s.url
    url := s.url
    cover := pyOr (best_cover_for fetch s.url) ""
    source := s.source
    time := s.time
    tags := withExtra "Peer-reviewed" extra }

/-- Loop of `build_pubmed_items`; `count` is `len(items)` so far, since the
source appends and then breaks once `len(items) >= limit`. -/
def build_pubmed_aux (days : Int) (limit : Nat) (extra : Option (List String))
    (today : Date) (fetch : String → Option Page) (count : Nat) :
    List SummaryRec → List Item
  | [] => []
  | s :: rest =>
    if within_days s.time days today then
      if count + 1 ≥ limit then [pubItemOf extra fetch s]
      else pubItemOf extra fetch s :: build_pubmed_aux days limit extra today fetch (count + 1) rest
    else build_pubmed_aux days limit extra today fetch count rest

/-- Models `build_pubmed_items`, over the already-fetched summary records
(the output of the `search_pubmed` / `fetch_pubmed_summaries` composition)
and the page-fetch oracle used for abstracts and covers. -/
def build_pubmed_items (summaries : List SummaryRec) (days : Int) (limit : Nat)
    (extra : Option (List String)) (today : Date) (fetch : String → Option Page) :
    List Item :=
  build_pubmed_aux days limit extra today fetch 0 summaries

/-- One `links` element of a feedparser arXiv entry (`l.get("type")`,
`l.get("href")`). -/
structure ArxLink where
  ltype : Option String
  href : Option String
  deriving DecidableEq, Repr

/-- One parsed feed entry of the arXiv API response. -/
structure ArxEntry where
  title : String
  summary : String
  links : List ArxLink
  link : String
  published : Option String
  updated : Option String
  deriving DecidableEq, Repr

/-- The `for l in e.links` scan: the first link typed `text/html` or
`application/pdf` sets `link` to its `href`; no match leaves the initial
empty string. -/
def pickLink (links : List ArxLink) : Option String :=
  match links.find?
      (fun l => l.ltype == some "text/html" || l.ltype == some "application/pdf") with
  | some l => l.href
  | none => some ""

/-- The `Item` the `fetch_arxiv` loop constructs from one feed entry, given
the computed `date_iso`. -/
def arxItemOf (extra : Option (List String)) (e : ArxEntry) (date_iso : String) : Item :=
  { id := md5 (pyOr (pickLink e.links) e.link)
    title := collapseWS e.title
    summary := clean_abs e.summary 800
    url := pyOr (pickLink e.links) e.link
    cover := "https://www.google.com/s2/favicons?sz=256&domain="
        ++ netloc (pyOr (pickLink e.links) e.link)
    source := "arXiv"
    time := date_iso
    tags := withExtra "Preprint" extra }

/-- Loop of `fetch_arxiv` over the parsed feed entries (`count` is the number
of items built so far); a raised `iso_date` error propagates out of the whole
call. -/
def fetch_arxiv_aux (days : Int) (limit : Nat) (extra : Option (List String))
    (today : Date) (count : Nat) : List ArxEntry → Except Unit (List Item)
  | [] => Except.ok []
  | e :: rest =>
    let published := pyOr e.published (pyOr e.updated "")
    match (if published ≠ "" then iso_date published else Except.ok (today_jst_str today)) with
    | Except.error err => Except.error err
    | Except.ok date_iso =>
      if within_days date_iso days today then
        if count + 1 ≥ limit then Except.ok [arxItemOf extra e date_iso]
        else
          match fetch_arxiv_aux days limit extra today (count + 1) rest with
          | Except.error err => Except.error err
          | Except.ok restItems => Except.ok (arxItemOf extra e date_iso :: restItems)
      else fetch_arxiv_aux days limit extra today count rest

/-- Models `fetch_arxiv`, over the already-parsed feed entries. -/
def fetch_arxiv (entries : List ArxEntry) (days : Int) (limit : Nat)
    (extra : Option (List String)) (today : Date) : Except Unit (List Item) :=
  fetch_arxiv_aux days limit extra today 0 entries

/-- Deduplication key of `dedupe`: the lowercased `(title, source)` pair. -/
def dedupeKey (it : Item) : String × String := (pyLower it.title, pyLower it.source)

/-- Loop of `dedupe` with the running `seen` set. -/
def dedupeAux (seen : List (String × String)) : List Item → List Item
  | [] => []
  | it :: rest =>
    if dedupeKey it ∈ seen then dedupeAux seen rest
    else it :: dedupeAux (dedupeKey it :: seen) rest

/-- Models `dedupe`. -/
def dedupe (items : List Item) : List Item := dedupeAux [] items

/-- The configured per-section cap, `MAX_PER_SECTION = 40`. -/
def MAX_PER_SECTION : Nat := 40

/-- The three topic buckets of a snapshot. -/
structure Buckets where
  ai_biomed : List Item
  microfluidics : List Item
  bioinfo : List Item
  deriving DecidableEq, Repr

/-- Models the bucket assembly of `main`: concatenate each topic's adapter
outputs, deduplicate, and slice to the per-topic cap. -/
def assemble (ai_pub ai_arxiv micro_pub bio_pub bio_arxiv : List Item) : Buckets :=
  { ai_biomed := (dedupe (ai_pub ++ ai_arxiv)).take MAX_PER_SECTION
    microfluidics := (dedupe micro_pub).take (max 12 (MAX_PER_SECTION / 2))
    bioinfo := (dedupe (bio_pub ++ bio_arxiv)).take MAX_PER_SECTION }

/-- Modelled from the spec: `time` is claimed to match the `YYYY-MM-DD`
pattern and parse to a valid calendar date. -/
def isValidDateString (s : String) : Bool := (fromisoformat s).isSome

/-- Modelled from the spec: day value of a `time` field, for stating the
claimed date ordering of a bucket. -/
def dateVal (s : String) : Nat :=
  match fromisoformat (s.take 10) with
  | some d => toOrdinalNat d
  | none => 0

/-- Modelled from the spec: the claimed deduplication key for an item that has
a URL — the URL with its query part stripped. -/
def spec_strip_query (u : String) : String :=
  String.mk (u.data.takeWhile (fun c => c != '?'))

/-- Modelled from the spec: a bucket is sorted by `time` descending when each
item's date is at least the date of every later item. -/
def sortedByTimeDesc (l : List Item) : Prop :=
  l.Pairwise (fun a b => dateVal b.time ≤ dateVal a.time)

instance (l : List Item) : Decidable (sortedByTimeDesc l) :=
  List.instDecidablePairwise l

/-- Unfolding of `within_days` on a date string that parses. -/
theorem within_days_parsed {s : String} {d : Date} (h : fromisoformat (s.take 10) = some d)
    (days : Int) (today : Date) :
    within_days s days today =
      decide ((toOrdinalNat today : Int) - toOrdinalNat d ≤ max days 0) := by
  unfold within_days
  rw [h]

/-! Helper lemmas about `dedupe`. -/

theorem dedupeAux_sublist (l : List Item) :
    ∀ seen, List.Sublist (dedupeAux seen l) l := by
  induction l with
  | nil => intro seen; simp [dedupeAux]
  | cons a rest ih =>
    intro seen
    simp only [dedupeAux]
    split
    · exact (ih seen).trans (List.sublist_cons_self a rest)
    · exact (ih _).cons₂ a

theorem mem_dedupeAux (l : List Item) :
    ∀ (seen : List (String × String)) (it : Item),
      it ∈ dedupeAux seen l ↔
        dedupeKey it ∉ seen ∧
          l.find? (fun x => decide (dedupeKey x = dedupeKey it)) = some it := by
  induction l with
  | nil => intro seen it; simp [dedupeAux]
  | cons a rest ih =>
    intro seen it
    simp only [dedupeAux]
    by_cases he : dedupeKey a = dedupeKey it
    · rw [List.find?_cons_of_pos _ (by simpa using he)]
      by_cases hk : dedupeKey a ∈ seen
      · rw [if_pos hk, ih]
        constructor
        · rintro ⟨hn, -⟩; exact absurd (he ▸ hk) hn
        · rintro ⟨hn, -⟩; exact absurd (he ▸ hk) hn
      · rw [if_neg hk]
        constructor
        · intro hmem
          rcases List.mem_cons.mp hmem with rfl | hmem2
          · exact ⟨he ▸ hk, rfl⟩
          · have := ((ih _ it).mp hmem2).1
            exact absurd (List.mem_cons_self _ _) (he ▸ this)
        · rintro ⟨-, hfind⟩
          have : a = it := by simpa using hfind
          exact this ▸ List.mem_cons_self a _
    · rw [List.find?_cons_of_neg _ (by simpa using he)]
      by_cases hk : dedupeKey a ∈ seen
      · rw [if_pos hk, ih]
      · rw [if_neg hk]
        constructor
        · intro hmem
          rcases List.mem_cons.mp hmem with rfl | hmem2
          · exact absurd rfl he
          · have h2 := (ih _ it).mp hmem2
            refine ⟨fun hin => h2.1 (List.mem_cons_of_mem _ hin), h2.2⟩
        · rintro ⟨hn, hfind⟩
          refine List.mem_cons_of_mem _ ((ih _ it).mpr ⟨?_, hfind⟩)
          intro hin
          rcases List.mem_cons.mp hin with heq | hin2
          · exact he heq.symm
          · exact hn hin2

theorem dedupeAux_pairwise (l : List Item) :
    ∀ seen, (dedupeAux seen l).Pairwise (fun a b => dedupeKey a ≠ dedupeKey b) := by
  induction l with
  | nil => intro seen; simp [dedupeAux]
  | cons a rest ih =>
    intro seen
    simp only [dedupeAux]
    split
    · exact ih seen
    · refine List.pairwise_cons.mpr ⟨?_, ih _⟩
      intro b hb heq
      have hnot := ((mem_dedupeAux rest _ b).mp hb).1
      exact hnot (heq ▸ List.mem_cons_self _ _)

/-! Claim theorems (recency filter, deduplication, bucket assembly). -/

/-- C2 (counterexample): two items that share the same URL-minus-query but
have different titles both survive `dedupe`, although the claim demands that
with a URL present the key is the query-stripped URL and exactly one of the
two survives.  The code keys on lowercased `(title, source)` only. -/
theorem c2_dedupe_cx :
    spec_strip_query "http://x.com/a?utm=1" = spec_strip_query "http://x.com/a?utm=2" ∧
    dedupe [⟨"a1", "Alpha", "", "http://x.com/a?utm=1", "", "S", "2026-10-10", []⟩,
            ⟨"b1", "Beta", "", "http://x.com/a?utm=2", "", "S", "2026-10-11", []⟩]
      = [⟨"a1", "Alpha", "", "http://x.com/a?utm=1", "", "S", "2026-10-10", []⟩,
         ⟨"b1", "Beta", "", "http://x.com/a?utm=2", "", "S", "2026-10-11", []⟩] := by
  constructor <;> rfl

/-- C2 (amended): `dedupe` makes a single pass in original order keyed by the
lowercased `(title, source)` pair alone (the URL plays no part): the output is
a subsequence of the input, its keys are pairwise distinct, and an item
survives exactly when it is the first occurrence of its key in the input. -/
theorem c2_dedupe_amended (l : List Item) :
    List.Sublist (dedupe l) l ∧
    (dedupe l).Pairwise (fun a b => dedupeKey a ≠ dedupeKey b) ∧
    ∀ it : Item, it ∈ dedupe l ↔
      l.find? (fun x => decide (dedupeKey x = dedupeKey it)) = some it := by
  refine ⟨dedupeAux_sublist l [], dedupeAux_pairwise l [], fun it => ?_⟩
  rw [dedupe, mem_dedupeAux]
  simp

/-- C3: the recency filter has an inclusive boundary — for any lookback of
`n ≥ 0` days, a date exactly `n` days before today passes `within_days` and a
date `n + 1` days before today does not. -/
theorem c3_recency_boundary (today d d' : Date) (n : Nat) (s s' : String)
    (hs : fromisoformat (s.take 10) = some d)
    (hd : (toOrdinalNat today : Int) - toOrdinalNat d = n)
    (hs' : fromisoformat (s'.take 10) = some d')
    (hd' : (toOrdinalNat today : Int) - toOrdinalNat d' = (n : Int) + 1) :
    within_days s n today = true ∧ within_days s' n today = false := by
  rw [within_days_parsed hs, within_days_parsed hs', hd, hd',
    max_eq_left (Int.natCast_nonneg n)]
  constructor
  · simp
  · simp

/-- Witness for C3 at a concrete boundary: lookback 3 around 2026-10-12. -/
theorem c3_recency_boundary_witness :
    within_days "2026-10-09" 3 ⟨2026, 10, 12⟩ = true ∧
    within_days "2026-10-08" 3 ⟨2026, 10, 12⟩ = false :=
  c3_recency_boundary ⟨2026, 10, 12⟩ ⟨2026, 10, 9⟩ ⟨2026, 10, 8⟩ 3 "2026-10-09" "2026-10-08"
    (by decide) (by decide) (by decide) (by decide)

/-- C4: for every possible sequence of adapter outputs, each assembled topic
bucket respects its configured cap — `MAX_PER_SECTION` for `ai_biomed` and
`bioinfo`, `max 12 (MAX_PER_SECTION / 2)` for `microfluidics`. -/
theorem c4_bucket_caps (ai_pub ai_arxiv micro_pub bio_pub bio_arxiv : List Item) :
    (assemble ai_pub ai_arxiv micro_pub bio_pub bio_arxiv).ai_biomed.length
        ≤ MAX_PER_SECTION ∧
    (assemble ai_pub ai_arxiv micro_pub bio_pub bio_arxiv).microfluidics.length
        ≤ max 12 (MAX_PER_SECTION / 2) ∧
    (assemble ai_pub ai_arxiv micro_pub bio_pub bio_arxiv).bioinfo.length
        ≤ MAX_PER_SECTION :=
  ⟨List.length_take_le _ _, List.length_take_le _ _, List.length_take_le _ _⟩

/-- C5 (counterexample): the assembler never sorts — with a PubMed item dated
2024-01-01 followed by an arXiv item dated 2024-06-01, the `ai_biomed` bucket
keeps the concatenation order, which is ascending rather than descending. -/
theorem c5_not_sorted_cx :
    ((assemble [⟨"a1", "Alpha", "", "http://x.com/a", "", "S", "2024-01-01", []⟩]
        [⟨"b1", "Beta", "", "http://y.com/b", "", "arXiv", "2024-06-01", []⟩]
        [] [] []).ai_biomed.map Item.time = ["2024-01-01", "2024-06-01"]) ∧
    ¬ sortedByTimeDesc ((assemble [⟨"a1", "Alpha", "", "http://x.com/a", "", "S", "2024-01-01", []⟩]
        [⟨"b1", "Beta", "", "http://y.com/b", "", "arXiv", "2024-06-01", []⟩]
        [] [] []).ai_biomed) := by
  constructor
  · rfl
  · decide

/-- C5 (amended): no sorting is applied; each assembled bucket is a
subsequence of its adapters' concatenated outputs (PubMed items before arXiv
items), so bucket order is adapter order, not date order. -/
theorem c5_order_amended (ai_pub ai_arxiv micro_pub bio_pub bio_arxiv : List Item) :
    ((assemble ai_pub ai_arxiv micro_pub bio_pub bio_arxiv).ai_biomed).Sublist (ai_pub ++ ai_arxiv) ∧
    ((assemble ai_pub ai_arxiv micro_pub bio_pub bio_arxiv).microfluidics).Sublist micro_pub ∧
    ((assemble ai_pub ai_arxiv micro_pub bio_pub bio_arxiv).bioinfo).Sublist (bio_pub ++ bio_arxiv) :=
  ⟨(List.take_sublist _ _).trans (dedupeAux_sublist _ []),
   (List.take_sublist _ _).trans (dedupeAux_sublist _ []),
   (List.take_sublist _ _).trans (dedupeAux_sublist _ [])⟩

/-- C7: a date string that does not parse makes `within_days` return `true`
for every lookback value — unparseable dates are retained as recent. -/
theorem c7_unparseable_recent (s : String) (days : Int) (today : Date)
    (h : fromisoformat (s.take 10) = none) :
    within_days s days today = true := by
  unfold within_days
  rw [h]

/-- Witness for C7: a PubMed-style date string and even a negative lookback. -/
theorem c7_unparseable_recent_witness :
    within_days "2025 Mar 5" (-7) ⟨2026, 10, 12⟩ = true :=
  c7_unparseable_recent "2025 Mar 5" (-7) ⟨2026, 10, 12⟩ (by decide)

/-- C8: when the underlying HTTP fetch fails (`safe_get` returns `None`),
`search_pubmed` and `fetch_pubmed_summaries` return the empty list — and as
total Lean functions they raise nothing. -/
theorem c8_fetch_failure_empty :
    search_pubmed none = [] ∧
    ∀ (pmids : List String) (today : Date), fetch_pubmed_summaries pmids none today = [] := by
  refine ⟨rfl, fun pmids today => ?_⟩
  unfold fetch_pubmed_summaries
  split <;> rfl

/-! Helper lemmas about `iso_date` and the adapter loops. -/

theorem fromisoformat_valid {s : String} {d : Date} (h : fromisoformat s = some d) :
    validDate d.year d.month d.day = true := by
  unfold fromisoformat at h
  split at h
  · dsimp only at h
    split at h
    · split at h
      · rename_i hv
        injection h with h2
        subst h2
        exact hv
      · simp at h
    · simp at h
  · simp at h

theorem iso_date_shape (s t : String) (h : iso_date s = Except.ok t) :
    (∃ d : Date, validDate d.year d.month d.day = true ∧ t = isoformatDate d) ∨
      t = s.take 10 := by
  unfold iso_date at h
  split at h
  · rename_i dte hfi
    injection h with h2
    exact Or.inl ⟨dte, fromisoformat_valid hfi, h2.symm⟩
  · split at h
    · split at h
      · rename_i y mo dd hfd hv
        injection h with h2
        exact Or.inl ⟨⟨y, mo, dd⟩, hv, h2.symm⟩
      · simp at h
    · injection h with h2
      exact Or.inr h2.symm

theorem summary_of_empty_date (today : Date) (k : String) (v : PubMedDoc)
    (h : pyOr v.pubdate (pyOr v.epubdate (pyOr v.sortpubdate "")) = "") :
    ∃ r, summary_of today k v = Except.ok r ∧ r.time = today_jst_str today := by
  unfold summary_of
  rw [h]
  exact ⟨_, rfl, rfl⟩

theorem mem_build_pubmed_aux (days : Int) (limit : Nat) (extra : Option (List String))
    (today : Date) (fetch : String → Option Page) :
    ∀ (summaries : List SummaryRec) (count : Nat) (it : Item),
      it ∈ build_pubmed_aux days limit extra today fetch count summaries →
      ∃ s ∈ summaries, it = pubItemOf extra fetch s := by
  intro summaries
  induction summaries with
  | nil => intro count it h; simp [build_pubmed_aux] at h
  | cons s rest ih =>
    intro count it h
    simp only [build_pubmed_aux] at h
    split at h
    · split at h
      · rw [List.mem_singleton] at h
        exact ⟨s, List.mem_cons_self s rest, h⟩
      · rcases List.mem_cons.mp h with rfl | h2
        · exact ⟨s, List.mem_cons_self s rest, rfl⟩
        · obtain ⟨s2, hs2, he⟩ := ih _ _ h2
          exact ⟨s2, List.mem_cons_of_mem _ hs2, he⟩
    · obtain ⟨s2, hs2, he⟩ := ih _ _ h
      exact ⟨s2, List.mem_cons_of_mem _ hs2, he⟩

theorem fetch_arxiv_aux_shape (days : Int) (limit : Nat) (extra : Option (List String))
    (today : Date) :
    ∀ (entries : List ArxEntry) (count : Nat) (items : List Item),
      fetch_arxiv_aux days limit extra today count entries = Except.ok items →
      ∀ it ∈ items, ∃ e date_iso, it = arxItemOf extra e date_iso := by
  intro entries
  induction entries with
  | nil =>
    intro count items h it hit
    simp only [fetch_arxiv_aux] at h
    injection h with h2
    subst h2
    simp at hit
  | cons e rest ih =>
    intro count items h it hit
    simp only [fetch_arxiv_aux] at h
    split at h
    · simp at h
    · split at h
      · split at h
        · injection h with h2
          subst h2
          rw [List.mem_singleton] at hit
          exact ⟨e, _, hit⟩
        · split at h
          · simp at h
          · rename_i restItems hrest
            injection h with h2
            subst h2
            rcases List.mem_cons.mp hit with rfl | h3
            · exact ⟨e, _, rfl⟩
            · exact ih _ _ hrest it h3
      · exact ih _ _ h it hit

theorem pubItemOf_id (extra : Option (List String)) (fetch : String → Option Page)
    (s : SummaryRec) : (pubItemOf extra fetch s).id = md5 s.url := by
  simp only [pubItemOf]

theorem pubItemOf_url (extra : Option (List String)) (fetch : String → Option Page)
    (s : SummaryRec) : (pubItemOf extra fetch s).url = s.url := by
  simp only [pubItemOf]

theorem arxItemOf_id (extra : Option (List String)) (e : ArxEntry) (date_iso : String) :
    (arxItemOf extra e date_iso).id = md5 (pyOr (pickLink e.links) e.link) := by
  simp only [arxItemOf]

theorem arxItemOf_url (extra : Option (List String)) (e : ArxEntry) (date_iso : String) :
    (arxItemOf extra e date_iso).url = pyOr (pickLink e.links) e.link := by
  simp only [arxItemOf]

/-! Claim theorems (normalization, tagging, identity). -/

/-- C1 (counterexample): a PubMed record whose `pubdate` has the service's
usual "2025 Mar 5" shape passes through `iso_date` unchanged, so the emitted
item's `time` neither matches `YYYY-MM-DD` nor equals today's date — the
today-fallback fires only when the source date field is empty, not when it is
unparseable. -/
theorem c1_time_fallback_cx :
    ((build_pubmed_items
        (fetch_pubmed_summaries ["12345"]
          (some [("12345", ⟨some "A title", some "Nature", none, some "2025 Mar 5", none, none⟩)])
          ⟨2026, 10, 12⟩)
        3 40 (some ["Radiology"]) ⟨2026, 10, 12⟩ (fun _ => none)).map Item.time
      = ["2025 Mar 5"]) ∧
    isValidDateString "2025 Mar 5" = false ∧
    "2025 Mar 5" ≠ today_jst_str ⟨2026, 10, 12⟩ := by
  refine ⟨?_, by decide, by decide⟩
  rfl

/-- C1 (amended): a `time` value that `iso_date` returns without raising is
either the rendering of a valid calendar date or verbatim the first ten
characters of the source date string; the today-fallback applies exactly when
the record's date field is empty. -/
theorem c1_time_amended :
    (∀ s t : String, iso_date s = Except.ok t →
      (∃ d : Date, validDate d.year d.month d.day = true ∧ t = isoformatDate d) ∨
        t = s.take 10) ∧
    (∀ (today : Date) (k : String) (v : PubMedDoc),
      pyOr v.pubdate (pyOr v.epubdate (pyOr v.sortpubdate "")) = "" →
      ∃ r, summary_of today k v = Except.ok r ∧ r.time = today_jst_str today) :=
  ⟨iso_date_shape, summary_of_empty_date⟩

/-- Witness for C1 (amended) at a raw PubMed date and at an empty date. -/
theorem c1_time_amended_witness :
    ((∃ d : Date, validDate d.year d.month d.day = true ∧ "2025 Mar 5" = isoformatDate d) ∨
      "2025 Mar 5" = ("2025 Mar 5").take 10) ∧
    (∃ r, summary_of ⟨2026, 10, 12⟩ "99" ⟨none, none, none, none, none, none⟩ = Except.ok r ∧
      r.time = today_jst_str ⟨2026, 10, 12⟩) :=
  ⟨c1_time_amended.1 "2025 Mar 5" "2025 Mar 5" (by rfl),
   c1_time_amended.2 ⟨2026, 10, 12⟩ "99" ⟨none, none, none, none, none, none⟩ (by rfl)⟩

/-- C6 (counterexample): `main` passes `extra_tags=["Preprint"]` to
`fetch_arxiv`, whose loop already starts the tag list with `"Preprint"`; the
emitted arXiv item carries the label twice, the list is not deduplicated, and
it lands verbatim in the assembled `ai_biomed` bucket. -/
theorem c6_dup_tags_cx :
    ((fetch_arxiv
        [⟨"Deep learning for X", "Some abstract", [], "", some "2026-10-11T00:00:00Z", none⟩]
        3 15 (some ["Preprint"]) ⟨2026, 10, 12⟩).map
          (fun items => (assemble [] items [] [] []).ai_biomed.map Item.tags)
      = Except.ok [["Preprint", "Preprint"]]) ∧
    ¬ (["Preprint", "Preprint"] : List String).Nodup :=
  ⟨rfl, by decide⟩

/-- C6 (amended): an item's tag list is the fixed base label (`Peer-reviewed`
on the PubMed path, `Preprint` on the arXiv path) followed verbatim by the
configured extra tags — never deduplicated and never sorted — so a label
repeats exactly when the extras repeat it. -/
theorem c6_tags_amended (days : Int) (limit : Nat) (extra : Option (List String))
    (today : Date) (fetch : String → Option Page) :
    (∀ (summaries : List SummaryRec),
      ∀ it ∈ build_pubmed_items summaries days limit extra today fetch,
        it.tags = withExtra "Peer-reviewed" extra) ∧
    (∀ (entries : List ArxEntry) (items : List Item),
      fetch_arxiv entries days limit extra today = Except.ok items →
      ∀ it ∈ items, it.tags = withExtra "Preprint" extra) := by
  constructor
  · intro summaries it hit
    obtain ⟨s, -, rfl⟩ := mem_build_pubmed_aux days limit extra today fetch summaries 0 it hit
    rfl
  · intro entries items h it hit
    obtain ⟨e, diso, rfl⟩ := fetch_arxiv_aux_shape days limit extra today entries 0 items h it hit
    rfl

/-- Witness for C6 (amended) on a one-record PubMed run. -/
theorem c6_tags_amended_witness :
    (pubItemOf (some ["Radiology"]) (fun _ => none)
        ⟨"1", "T", "Nature", "2026-10-12", "https://pubmed.ncbi.nlm.nih.gov/1/"⟩).tags
      = withExtra "Peer-reviewed" (some ["Radiology"]) :=
  (c6_tags_amended 3 40 (some ["Radiology"]) ⟨2026, 10, 12⟩ (fun _ => none)).1
    [⟨"1", "T", "Nature", "2026-10-12", "https://pubmed.ncbi.nlm.nih.gov/1/"⟩]
    (pubItemOf (some ["Radiology"]) (fun _ => none)
      ⟨"1", "T", "Nature", "2026-10-12", "https://pubmed.ncbi.nlm.nih.gov/1/"⟩)
    (List.mem_cons_self _ _)

/-- C9 (counterexample): there is no title fallback for `id` — two arXiv
entries with no usable link (so an empty URL) and different titles receive
the same `id`, the 16-hex-digit MD5 prefix of the empty string. -/
theorem c9_id_cx :
    ((fetch_arxiv
        [⟨"Deep learning for X", "Some abstract", [], "", some "2026-10-11T00:00:00Z", none⟩,
         ⟨"Another paper", "More text", [], "", some "2026-10-11T00:00:00Z", none⟩]
        3 15 none ⟨2026, 10, 12⟩).map
          (fun items => (items.map Item.url, items.map Item.title, items.map Item.id))
      = Except.ok (["", ""], ["Deep learning for X", "Another paper"], [md5 "", md5 ""])) ∧
    "Deep learning for X" ≠ "Another paper" ∧ md5 "" = "d41d8cd98f00b204" := by
  refine ⟨rfl, by decide, rfl⟩

/-- C9 (amended): an item's `id` is always the first 16 hex digits of the MD5
digest of its `url` — also when the URL is empty — with no title fallback on
either adapter path. -/
theorem c9_id_amended (days : Int) (limit : Nat) (extra : Option (List String))
    (today : Date) (fetch : String → Option Page) :
    (∀ (summaries : List SummaryRec),
      ∀ it ∈ build_pubmed_items summaries days limit extra today fetch,
        it.id = md5 it.url) ∧
    (∀ (entries : List ArxEntry) (items : List Item),
      fetch_arxiv entries days limit extra today = Except.ok items →
      ∀ it ∈ items, it.id = md5 it.url) := by
  constructor
  · intro summaries it hit
    obtain ⟨s, -, rfl⟩ := mem_build_pubmed_aux days limit extra today fetch summaries 0 it hit
    rw [pubItemOf_id, pubItemOf_url]
  · intro entries items h it hit
    obtain ⟨e, diso, rfl⟩ := fetch_arxiv_aux_shape days limit extra today entries 0 items h it hit
    rw [arxItemOf_id, arxItemOf_url]

/-! Helper lemmas for the cover-resolution chain. -/

theorem str_ne_empty_iff {t : String} : t ≠ "" ↔ t.data ≠ [] := by
  constructor
  · intro h hd
    exact h (String.ext hd)
  · intro h hd
    subst hd
    exact h rfl

theorem str_append_ne_right (s t : String) (ht : t ≠ "") : s ++ t ≠ "" := by
  intro h
  have hd : s.data ++ t.data = [] := by
    have h2 := congrArg String.data h
    simpa [String.data_append] using h2
  exact str_ne_empty_iff.mp ht (List.append_eq_nil.mp hd).2

theorem str_append_ne_left (s t : String) (hs : s ≠ "") : s ++ t ≠ "" := by
  intro h
  have hd : s.data ++ t.data = [] := by
    have h2 := congrArg String.data h
    simpa [String.data_append] using h2
  exact str_ne_empty_iff.mp hs (List.append_eq_nil.mp hd).1

theorem urljoin_ne_empty (base ref : String) (hb : base ≠ "") : urljoin base ref ≠ "" := by
  unfold urljoin
  split_ifs with h1 h2 h3 h4 h5 <;>
    first
      | exact hb
      | exact h1
      | exact str_append_ne_right _ _ h1

theorem truthy_eq_some {o : Option String} {s : String} (h : truthy o = some s) :
    s ≠ "" ∧ o = some s := by
  match o with
  | none => simp [truthy] at h
  | some t =>
    by_cases ht : t = ""
    · simp [truthy, ht] at h
    · simp only [truthy, if_neg ht] at h
      injection h with h2
      subst h2
      exact ⟨ht, rfl⟩

theorem truthy_of_ne {s : String} (h : s ≠ "") : truthy (some s) = some s := by
  simp [truthy, h]

theorem pyOr_some_ne {s : String} (d : String) (h : s ≠ "") : pyOr (some s) d = s := by
  simp [pyOr, h]

theorem pubItemOf_cover (extra : Option (List String)) (fetch : String → Option Page)
    (s : SummaryRec) :
    (pubItemOf extra fetch s).cover = pyOr (best_cover_for fetch s.url) "" := by
  simp only [pubItemOf]

theorem get_og_image_of_fetch {fetch : String → Option Page} {url : String} {p : Page}
    (hf : fetch url = some p) :
    get_og_image fetch url =
      (match truthy p.ogContent with
        | some c => some (urljoin p.finalUrl (pyStrip c))
        | none =>
          match truthy p.twContent with
          | some c => some (urljoin p.finalUrl (pyStrip c))
          | none =>
            some ("https://www.google.com/s2/favicons?sz=256&domain=" ++ netloc p.finalUrl)) := by
  unfold get_og_image
  rw [hf]

theorem get_og_image_nonempty {fetch : String → Option Page} {url : String} {p : Page}
    (hf : fetch url = some p) (hu : p.finalUrl ≠ "") :
    ∃ img, get_og_image fetch url = some img ∧ img ≠ "" := by
  rw [get_og_image_of_fetch hf]
  cases hog : truthy p.ogContent with
  | some c => exact ⟨_, rfl, urljoin_ne_empty _ _ hu⟩
  | none =>
    cases htw : truthy p.twContent with
    | some c => exact ⟨_, rfl, urljoin_ne_empty _ _ hu⟩
    | none => exact ⟨_, rfl, str_append_ne_left _ _ (by decide)⟩

theorem best_cover_nonempty {fetch : String → Option Page} {url : String} {p : Page}
    (hf : fetch url = some p) (H : ∀ u q, fetch u = some q → q.finalUrl ≠ "") :
    ∃ img, best_cover_for fetch url = some img ∧ img ≠ "" := by
  obtain ⟨img, hog, hne⟩ := get_og_image_nonempty hf (H url p hf)
  unfold best_cover_for
  split
  · rw [hf]
    dsimp only
    cases hft : truthy p.fulltextHref with
    | some href =>
      dsimp only
      cases hstep : truthy (get_og_image fetch (urljoin p.finalUrl href)) with
      | some i => exact ⟨i, rfl, (truthy_eq_some hstep).1⟩
      | none =>
        rw [hog, truthy_of_ne hne]
        exact ⟨img, rfl, hne⟩
    | none =>
      rw [hog, truthy_of_ne hne]
      exact ⟨img, rfl, hne⟩
  · exact ⟨img, hog, hne⟩

/-- C10: `get_og_image` returns `None` exactly when the page fetch fails; on
every successful fetch it returns a non-empty image URL (the meta content
resolved against the final post-redirect URL, else a favicon-service URL for
the final host); consequently a PubMed item's `cover` is empty only when the
fetch of its URL failed (in which case no further page fetch for the item
happens).  The `finalUrl ≠ ""` hypotheses record that `requests` reports a
non-empty final URL on success. -/
theorem c10_cover_resolution :
    (∀ (fetch : String → Option Page) (url : String),
      get_og_image fetch url = none ↔ fetch url = none) ∧
    (∀ (fetch : String → Option Page) (url : String) (p : Page),
      fetch url = some p → p.finalUrl ≠ "" →
      ∃ img, get_og_image fetch url = some img ∧ img ≠ "") ∧
    (∀ (fetch : String → Option Page),
      (∀ u q, fetch u = some q → q.finalUrl ≠ "") →
      ∀ (summaries : List SummaryRec) (days : Int) (limit : Nat)
        (extra : Option (List String)) (today : Date),
      ∀ it ∈ build_pubmed_items summaries days limit extra today fetch,
        it.cover = "" → fetch it.url = none) := by
  refine ⟨?_, ?_, ?_⟩
  · intro fetch url
    cases hf : fetch url with
    | none =>
      unfold get_og_image
      rw [hf]
      simp
    | some p =>
      rw [get_og_image_of_fetch hf]
      constructor
      · intro h
        cases hog : truthy p.ogContent <;> rw [hog] at h
        · cases htw : truthy p.twContent <;> rw [htw] at h
          · exact Option.noConfusion h
          · exact Option.noConfusion h
        · exact Option.noConfusion h
      · intro h
        exact Option.noConfusion h
  · intro fetch url p hf hu
    exact get_og_image_nonempty hf hu
  · intro fetch H summaries days limit extra today it hit hcov
    obtain ⟨s, -, rfl⟩ := mem_build_pubmed_aux days limit extra today fetch summaries 0 it hit
    rw [pubItemOf_url]
    cases hq : fetch s.url with
    | none => rfl
    | some q =>
      exfalso
      obtain ⟨img, hbc, himg⟩ := best_cover_nonempty hq H
      rw [pubItemOf_cover, hbc, pyOr_some_ne _ himg] at hcov
      exact himg hcov

/-- Witness for C10 at a concrete fetched page and a concrete failing fetch. -/
theorem c10_cover_resolution_witness :
    (∃ img,
      get_og_image
        (fun _ => some ⟨"http://journal.org/x", some " /img.png ", none, none, none, none⟩)
        "http://journal.org/x" = some img ∧ img ≠ "") ∧
    ((fun (_ : String) => (none : Option Page))
        (pubItemOf none (fun _ => none)
          ⟨"1", "T", "Nature", "2026-10-12", "https://pubmed.ncbi.nlm.nih.gov/1/"⟩).url
      = none) :=
  ⟨c10_cover_resolution.2.1
      (fun _ => some ⟨"http://journal.org/x", some " /img.png ", none, none, none, none⟩)
      "http://journal.org/x" ⟨"http://journal.org/x", some " /img.png ", none, none, none, none⟩
      rfl (by decide),
   c10_cover_resolution.2.2 (fun _ => none) (fun u q h => Option.noConfusion h)
      [⟨"1", "T", "Nature", "2026-10-12", "https://pubmed.ncbi.nlm.nih.gov/1/"⟩]
      3 40 none ⟨2026, 10, 12⟩
      (pubItemOf none (fun _ => none)
        ⟨"1", "T", "Nature", "2026-10-12", "https://pubmed.ncbi.nlm.nih.gov/1/"⟩)
      (List.mem_cons_self _ _)
      (by decide)⟩

/-- Witness for C9 (amended) on a one-record PubMed run. -/
theorem c9_id_amended_witness :
    (pubItemOf none (fun _ => none)
        ⟨"1", "T", "Nature", "2026-10-12", "https://pubmed.ncbi.nlm.nih.gov/1/"⟩).id
      = md5 (pubItemOf none (fun _ => none)
        ⟨"1", "T", "Nature", "2026-10-12", "https://pubmed.ncbi.nlm.nih.gov/1/"⟩).url :=
  (c9_id_amended 3 40 none ⟨2026, 10, 12⟩ (fun _ => none)).1
    [⟨"1", "T", "Nature", "2026-10-12", "https://pubmed.ncbi.nlm.nih.gov/1/"⟩]
    (pubItemOf none (fun _ => none)
      ⟨"1", "T", "Nature", "2026-10-12", "https://pubmed.ncbi.nlm.nih.gov/1/"⟩)
    (List.mem_cons_self _ _)

end FetchNews

/-- Validation of the MD5 model against the RFC 1321 test suite. -/
theorem md5Hex_rfc_vectors :
    FetchNews.md5Hex "" = "d41d8cd98f00b204e9800998ecf8427e" ∧
    FetchNews.md5Hex "a" = "0cc175b9c0f1b6a831c399e269772661" ∧
    FetchNews.md5Hex "abc" = "900150983cd24fb0d6963f7d28e17f72" ∧
    FetchNews.md5 "" = "d41d8cd98f00b204" :=
  ⟨rfl, rfl, rfl, rfl⟩

/-- Sanity checks of the `iso_date` model on representative date strings. -/
theorem iso_date_checks :
    FetchNews.iso_date "2024-03-05T12:00:00Z" = Except.ok "2024-03-05" ∧
    FetchNews.iso_date "published 2024/3/5 here" = Except.ok "2024-03-05" ∧
    FetchNews.iso_date "2024 Mar 5" = Except.ok "2024 Mar 5" ∧
    FetchNews.iso_date "x 2024/13/5" = Except.error () :=
  ⟨rfl, rfl, rfl, rfl⟩
